import Mathlib

/-!
Verification of the sanctions-API core against its specification.

The definitions below are a shallow embedding of the Python source:

* `calculate_similarity_score`, `build_search_query`, `search_entities`
  embed `app/api/routes.py`;
* `ofac_process_entity`, `parse_ofac_xml`, `run_ofac_update` embed
  `app/etl/ofac_parser_final.py`; the `un_`-prefixed counterparts embed
  `app/etl/un_parser_final.py`;
* `trigger_manual_update` embeds the in-progress check of
  `app/api/etl_routes.py`;
* `health_check_job` embeds `app/etl/scheduler.py`.

Python strings are `List Char` (`str.lower` becomes `Char.toLower`
character-wise, which agrees with Python on ASCII data); floats produced by
the scorer are modelled exactly as rationals; the MD5 digests
(`hashlib.md5(...).hexdigest()`) are opaque pure functions of their input and
enter the model as explicit function parameters (`md5`, `recHash`); database
tables become lists in insertion order, with SQLAlchemy's
`order_by(desc).first()` and `filter(...).first()` modelled on those lists.
-/

namespace SanctionsApi

abbrev Str := List Char

/-- Character-wise lower-casing: model of Python `str.lower()` (ASCII). -/
def lowerStr (s : Str) : Str := s.map Char.toLower

/-- Accumulator-passing worker for `splitWords`; `acc` holds the current word
reversed. -/
def splitWordsGo : Str → Str → List Str
  | acc, [] => if acc.isEmpty then [] else [acc.reverse]
  | acc, c :: rest =>
    if c.isWhitespace then
      if acc.isEmpty then splitWordsGo [] rest
      else acc.reverse :: splitWordsGo [] rest
    else splitWordsGo (c :: acc) rest

/-- Model of Python `str.split()` with no argument: split on runs of
whitespace, discarding empty pieces. -/
def splitWords (s : Str) : List Str := splitWordsGo [] s

/-- Model of Python's substring test `q in t` (contiguous substring). -/
def isSubstrOf (q : Str) : Str → Bool
  | [] => q.isEmpty
  | c :: t' => q.isPrefixOf (c :: t') || isSubstrOf q t'

/-- `set(s.split())` on an already lower-cased string: the distinct words,
represented as a duplicate-free list. -/
def wordSet (s : Str) : List Str := (splitWords s).dedup

/-- The word-set intersection `set(a.split()) & set(b.split())` of two
already lower-cased strings, as a duplicate-free list. -/
def wordInter (a b : Str) : List Str :=
  (wordSet a).filter (fun w => (wordSet b).contains w)

/-- The size of the word-set union `set(a.split()) | set(b.split())` of two
already lower-cased strings. -/
def wordUnionCard (a b : Str) : ℕ := ((wordSet a) ++ (wordSet b)).dedup.length

/-- Embedding of `calculate_similarity_score` (`app/api/routes.py`, lines
53-78).  `0.8` and `0.6` are the exact rationals `4/5` and `3/5`; the first
branch is Python's falsy guard `if not query or not text: return 0.0`. -/
def calculate_similarity_score (query text : Str) : ℚ :=
  if query = [] ∨ text = [] then 0
  else if lowerStr query = lowerStr text then 1
  else if isSubstrOf (lowerStr query) (lowerStr text) then 4/5
  else if wordInter (lowerStr query) (lowerStr text) ≠ [] then
    ((wordInter (lowerStr query) (lowerStr text)).length : ℚ) /
      (wordUnionCard (lowerStr query) (lowerStr text) : ℚ) * (3/5)
  else 0

/-- The per-field scoring function exactly as the specification words it
(claim C1): equality ignoring case gives 1.0, substring gives 0.8, token-set
overlap gives `|intersection| / |union| * 0.6`, else 0.0 — with no special
case for empty strings. -/
def spec_score (query text : Str) : ℚ :=
  if lowerStr query = lowerStr text then 1
  else if isSubstrOf (lowerStr query) (lowerStr text) then 4/5
  else if wordInter (lowerStr query) (lowerStr text) ≠ [] then
    ((wordInter (lowerStr query) (lowerStr text)).length : ℚ) /
      (wordUnionCard (lowerStr query) (lowerStr text) : ℚ) * (3/5)
  else 0

/-! ## Data model (`app/models/entities.py`) -/

inductive Source
  | OFAC
  | UN
deriving DecidableEq

inductive EntityType
  | INDIVIDUAL
  | ENTITY
  | VESSEL
  | AIRCRAFT
deriving DecidableEq

inductive EntStatus
  | ACTIVE
  | UPDATED
  | DELISTED
deriving DecidableEq

inductive RunStatus
  | SUCCESS
  | FAILED
  | IN_PROGRESS
deriving DecidableEq

structure AliasRow where
  alias_name : Str
  quality : Str
deriving DecidableEq

structure AddressRow where
  full_address : Str
  city : Option Str
  country : Str
deriving DecidableEq

structure DocRow where
  doc_type : Str
  doc_number : Str
  issuer : Str
deriving DecidableEq

structure BirthRow where
  dob : Str
  pob : Str
deriving DecidableEq

structure SanctionRow where
  program : Str
  authority : Str
  listing_date : Option ℕ
  comments : Str
deriving DecidableEq

/-- One row of the `entities` table together with its owned child
collections (the SQLAlchemy relationships with cascade delete). -/
structure StoredEntity where
  source : Source
  source_id : Str
  name : Str
  type_ : EntityType
  status : EntStatus
  hash_signature : ℕ
  last_updated : ℕ
  listed_on : Option ℕ
  remarks : Str
  committee : Str
  resolution : Str
  aliases : List AliasRow
  addresses : List AddressRow
  documents : List DocRow
  nationalities : List Str
  births : List BirthRow
  sanctions : List SanctionRow
deriving DecidableEq

/-- One row of the `update_logs` table (the run ledger). -/
structure RunRec where
  source : Source
  update_date : ℕ
  records_added : ℕ
  records_updated : ℕ
  records_deleted : ℕ
  file_hash : Option ℕ
  status : RunStatus
  error_message : Option Str
deriving DecidableEq

/-! ## Matching engine (`app/api/routes.py`, `search_entities` and helpers) -/

inductive MatchType
  | mt_exact
  | mt_fuzzy
  | mt_alias
deriving DecidableEq

inductive MatchedField
  | nameField
  | aliasField
deriving DecidableEq

structure SearchMatch where
  score : ℚ
  match_type : MatchType
  matched_field : MatchedField
  matched_value : Option Str
deriving DecidableEq

/-- The alias loop of `search_entities` (lines 171-177): running maximum with
strict `>`, so the first alias attaining the maximum is kept. -/
def alias_best (q : Str) (aliases : List AliasRow) : ℚ × Option Str :=
  aliases.foldl
    (fun acc al =>
      if calculate_similarity_score q al.alias_name > acc.1 then
        (calculate_similarity_score q al.alias_name, some al.alias_name)
      else acc)
    (0, none)

/-- Lines 179-189 of `search_entities`: pick the name field when its score is
at least the alias score (`name_score >= alias_score`), otherwise the best
alias. -/
def best_match (q : Str) (e : StoredEntity) : SearchMatch :=
  if calculate_similarity_score q e.name ≥ (alias_best q e.aliases).1 then
    { score := calculate_similarity_score q e.name
      match_type := if calculate_similarity_score q e.name = 1 then .mt_exact else .mt_fuzzy
      matched_field := .nameField
      matched_value := some e.name }
  else
    { score := (alias_best q e.aliases).1
      match_type := .mt_alias
      matched_field := .aliasField
      matched_value := (alias_best q e.aliases).2 }

/-- Lines 164-203: score each candidate and keep it when
`best_score >= min_score`. -/
def score_and_filter (q : Str) (min_score : ℚ) (es : List StoredEntity) :
    List (StoredEntity × SearchMatch) :=
  es.filterMap (fun e =>
    if min_score ≤ (best_match q e).score then some (e, best_match q e) else none)

/-- Line 206: `results.sort(key=..., reverse=True)` — a stable sort by
descending score. -/
def sort_results (rs : List (StoredEntity × SearchMatch)) :
    List (StoredEntity × SearchMatch) :=
  rs.mergeSort (fun a b => decide (b.2.score ≤ a.2.score))

/-- SQL `LIKE` pattern matching, case-insensitive (`ilike`): `%` matches any
sequence, `_` any single character, other pattern characters literally up to
case. -/
def likeMatch : Str → Str → Bool
  | [], [] => true
  | [], _ :: _ => false
  | p :: ps, ts =>
    if p = '%' then
      likeMatch ps ts ||
        (match ts with
         | [] => false
         | _ :: ts' => likeMatch (p :: ps) ts')
    else if p = '_' then
      (match ts with
       | [] => false
       | _ :: ts' => likeMatch ps ts')
    else
      (match ts with
       | [] => false
       | t :: ts' => (Char.toLower p == Char.toLower t) && likeMatch ps ts')
termination_by ps ts => (ts.length, ps.length)

/-- The pattern `f"%{query}%"` passed to every `ilike` call. -/
def ilike_pat (q : Str) : Str := '%' :: (q ++ ['%'])

/-- The `or_`-ed text conditions of `build_search_query` (lines 100-128):
name, alias names, address fields, document numbers. -/
def matches_search_text (q : Str) (e : StoredEntity) : Bool :=
  likeMatch (ilike_pat q) e.name
  || e.aliases.any (fun a => likeMatch (ilike_pat q) a.alias_name)
  || e.addresses.any (fun a =>
       likeMatch (ilike_pat q) a.full_address
       || (match a.city with
           | some c => likeMatch (ilike_pat q) c
           | none => false)
       || likeMatch (ilike_pat q) a.country)
  || e.documents.any (fun d => likeMatch (ilike_pat q) d.doc_number)

structure SearchFilters where
  source : Option Source
  entity_type : Option EntityType
  status : Option EntStatus
  date_from : Option ℕ
  date_to : Option ℕ
deriving DecidableEq

def SearchFilters.empty : SearchFilters := ⟨none, none, none, none, none⟩

/-- The scalar filters of `build_search_query` (lines 87-97); a `NULL`
`listed_on` never satisfies a date bound, as in SQL. -/
def entity_passes_filters (f : SearchFilters) (e : StoredEntity) : Bool :=
  (match f.source with
   | some s => decide (e.source = s)
   | none => true)
  && (match f.entity_type with
      | some t => decide (e.type_ = t)
      | none => true)
  && (match f.status with
      | some st => decide (e.status = st)
      | none => true)
  && (match f.date_from with
      | some d =>
        (match e.listed_on with
         | some l => decide (d ≤ l)
         | none => false)
      | none => true)
  && (match f.date_to with
      | some d =>
        (match e.listed_on with
         | some l => decide (l ≤ d)
         | none => false)
      | none => true)

/-- Embedding of `build_search_query` (lines 80-130): the SQL candidate
pre-filter over the entity store. -/
def build_search_query (store : List StoredEntity) (q : Str) (f : SearchFilters) :
    List StoredEntity :=
  (store.filter (fun e => entity_passes_filters f e)).filter
    (fun e => matches_search_text q e)

/-- Embedding of the `search_entities` endpoint body (lines 156-206):
candidates, pagination (`offset`/`limit`), scoring, `min_score` filter,
descending sort. -/
def search_entities (store : List StoredEntity) (q : Str) (f : SearchFilters)
    (min_score : ℚ) (offset limit : ℕ) : List (StoredEntity × SearchMatch) :=
  sort_results
    (score_and_filter q min_score (((build_search_query store q f).drop offset).take limit))

/-! ## ETL pipeline (`app/etl/ofac_parser_final.py`, `app/etl/un_parser_final.py`)

The MD5 fingerprints (`calculate_hash` over the raw feed text, and the
`hash_signature` over `str(entity_data)`) are opaque pure functions; they are
passed in as parameters `md5 : Str → ℕ` and `recHash : EntityData → ℕ`. -/

/-- The `stats` dictionary each parser instance accumulates. -/
structure Stats where
  entities_added : ℕ
  entities_updated : ℕ
  entities_deleted : ℕ
  aliases_added : ℕ
  addresses_added : ℕ
  documents_added : ℕ
  sanctions_added : ℕ
  errors : List Str
deriving DecidableEq

def Stats.init : Stats := ⟨0, 0, 0, 0, 0, 0, 0, []⟩

/-- The `entity_data` dictionary produced by the extraction methods.  The
UN-only keys (`remarks`, `committee`, `resolution`, `listed_on`) are empty /
`none` for OFAC records, as in the OFAC extractor's initial dictionary. -/
structure EntityData where
  source_id : Str
  name : Str
  type_ : EntityType
  aliases : List AliasRow
  addresses : List (Str × Str)
  documents : List DocRow
  nationalities : List Str
  birth_info : Option BirthRow
  program : Str
  remarks : Str
  committee : Str
  resolution : Str
  listed_on : Option ℕ
deriving DecidableEq

/-- Address rows built by `process_entity`: `full_address` and `country` from
the record, `city` never populated. -/
def addr_rows (addrs : List (Str × Str)) : List AddressRow :=
  addrs.map (fun p => { full_address := p.1, city := none, country := p.2 })

/-- The `Birth` row added when `entity_data['birth_info']` is non-empty. -/
def birth_rows (d : EntityData) : List BirthRow :=
  match d.birth_info with
  | some b => [b]
  | none => []

/-- The single `Sanction` row OFAC's `process_entity` adds:
`program=entity_data['program'] or 'OFAC'` (Python falsy `or`). -/
def ofac_sanction (d : EntityData) : SanctionRow :=
  { program := if d.program = [] then "OFAC".toList else d.program
    authority := "OFAC".toList
    listing_date := none
    comments := "Sancionado por OFAC - Programa: ".toList ++ d.program }

/-- The single `Sanction` row UN's `process_entity` adds; the `'committee'`
key always exists, so `entity_data.get('committee', ...)` returns it
verbatim. -/
def un_sanction (d : EntityData) : SanctionRow :=
  { program := d.committee
    authority := "UN".toList
    listing_date := d.listed_on
    comments := d.remarks }

/-- Replace the first list element satisfying `p` by its image under `f`;
`none` when no element matches.  Models
`db.query(Entity).filter(...).first()` followed by in-place mutation. -/
def replaceFirstBy (p : α → Bool) (f : α → α) : List α → Option (List α)
  | [] => none
  | e :: es => if p e then some (f e :: es) else (replaceFirstBy p f es).map (e :: ·)

/-- The `(source, source_id)` lookup predicate of OFAC's `process_entity`. -/
def ofac_matches (d : EntityData) (e : StoredEntity) : Bool :=
  decide (e.source = Source.OFAC) && decide (e.source_id = d.source_id)

/-- The update branch of OFAC's `process_entity` (lines 291-321 plus the
child-rebuild below it): scalar fields updated, status `UPDATED`, the five
child collections rebuilt from the record; `hash_signature` is not
reassigned anywhere in this branch, and `Birth` rows are not in the deletion
loop, so they accumulate. -/
def ofac_update_existing (now : ℕ) (d : EntityData) (e : StoredEntity) : StoredEntity :=
  { e with
    name := d.name
    type_ := d.type_
    last_updated := now
    status := EntStatus.UPDATED
    aliases := d.aliases
    addresses := addr_rows d.addresses
    documents := d.documents
    nationalities := d.nationalities
    births := e.births ++ birth_rows d
    sanctions := [ofac_sanction d] }

/-- The insert branch of OFAC's `process_entity`. -/
def ofac_new_entity (recHash : EntityData → ℕ) (now : ℕ) (d : EntityData) : StoredEntity :=
  { source := Source.OFAC
    source_id := d.source_id
    name := d.name
    type_ := d.type_
    status := EntStatus.ACTIVE
    hash_signature := recHash d
    last_updated := now
    listed_on := none
    remarks := []
    committee := []
    resolution := []
    aliases := d.aliases
    addresses := addr_rows d.addresses
    documents := d.documents
    nationalities := d.nationalities
    births := birth_rows d
    sanctions := [ofac_sanction d] }

/-- The per-record child counters bumped by both `process_entity` bodies. -/
def bump_children (d : EntityData) (s : Stats) : Stats :=
  { s with
    aliases_added := s.aliases_added + d.aliases.length
    addresses_added := s.addresses_added + d.addresses.length
    documents_added := s.documents_added + d.documents.length
    sanctions_added := s.sanctions_added + 1 }

/-- Embedding of `OFACParserFinal.process_entity` (lines 282-391). -/
def ofac_process_entity (recHash : EntityData → ℕ) (now : ℕ) (d : EntityData)
    (store : List StoredEntity) (stats : Stats) : List StoredEntity × Stats :=
  match replaceFirstBy (ofac_matches d) (ofac_update_existing now d) store with
  | some store' =>
    (store', bump_children d { stats with entities_updated := stats.entities_updated + 1 })
  | none =>
    (store ++ [ofac_new_entity recHash now d],
     bump_children d { stats with entities_added := stats.entities_added + 1 })

/-- The `(source, source_id)` lookup predicate of UN's `process_entity`. -/
def un_matches (d : EntityData) (e : StoredEntity) : Bool :=
  decide (e.source = Source.UN) && decide (e.source_id = d.source_id)

/-- The update branch of UN's `process_entity` (lines 399-437 plus the
child rebuild): like OFAC's but also updating the UN scalar fields;
`hash_signature` is again left untouched. -/
def un_update_existing (now : ℕ) (d : EntityData) (e : StoredEntity) : StoredEntity :=
  { e with
    name := d.name
    type_ := d.type_
    remarks := d.remarks
    committee := d.committee
    resolution := d.resolution
    listed_on := d.listed_on
    last_updated := now
    status := EntStatus.UPDATED
    aliases := d.aliases
    addresses := addr_rows d.addresses
    documents := d.documents
    nationalities := d.nationalities
    births := e.births ++ birth_rows d
    sanctions := [un_sanction d] }

/-- The insert branch of UN's `process_entity`. -/
def un_new_entity (recHash : EntityData → ℕ) (now : ℕ) (d : EntityData) : StoredEntity :=
  { source := Source.UN
    source_id := d.source_id
    name := d.name
    type_ := d.type_
    status := EntStatus.ACTIVE
    hash_signature := recHash d
    last_updated := now
    listed_on := d.listed_on
    remarks := d.remarks
    committee := d.committee
    resolution := d.resolution
    aliases := d.aliases
    addresses := addr_rows d.addresses
    documents := d.documents
    nationalities := d.nationalities
    births := birth_rows d
    sanctions := [un_sanction d] }

/-- Embedding of `UNParserFinal.process_entity` (lines 390-508). -/
def un_process_entity (recHash : EntityData → ℕ) (now : ℕ) (d : EntityData)
    (store : List StoredEntity) (stats : Stats) : List StoredEntity × Stats :=
  match replaceFirstBy (un_matches d) (un_update_existing now d) store with
  | some store' =>
    (store', bump_children d { stats with entities_updated := stats.entities_updated + 1 })
  | none =>
    (store ++ [un_new_entity recHash now d],
     bump_children d { stats with entities_added := stats.entities_added + 1 })

/-- One element of a feed: either extraction yields an `entity_data`
dictionary (whose name may be empty, in which case the record is skipped), or
a per-record exception with its message. -/
inductive EntryOutcome
  | record (d : EntityData)
  | failure (err : Str)
deriving DecidableEq

/-- One iteration of the per-record loop shared by both parsers: exceptions
are appended to the error list and processing continues; records with an
empty name are skipped silently. -/
def etl_step (proc : EntityData → List StoredEntity → Stats → List StoredEntity × Stats)
    (acc : List StoredEntity × Stats) (eo : EntryOutcome) : List StoredEntity × Stats :=
  match eo with
  | .failure err => (acc.1, { acc.2 with errors := acc.2.errors ++ [err] })
  | .record d => if d.name ≠ [] then proc d acc.1 acc.2 else acc

/-- The result of `ET.fromstring` plus element search on an OFAC feed:
either the XML is malformed (general exception) or it yields the list of
`sdnEntry` elements. -/
inductive OfacParsed
  | malformed (err : Str)
  | wellFormed (entries : List EntryOutcome)
deriving DecidableEq

/-- A successfully downloaded OFAC feed: the raw text (fingerprinted by
`calculate_hash`) and what parsing it yields. -/
structure OfacDownload where
  raw : Str
  parsed : OfacParsed
deriving DecidableEq

/-- Embedding of `OFACParserFinal.parse_ofac_xml` (lines 238-280): `False`
on malformed XML or when no `sdnEntry` elements are found, otherwise the
record loop runs to completion and the result is `True`. -/
def parse_ofac_xml (recHash : EntityData → ℕ) (now : ℕ) (parsed : OfacParsed)
    (store : List StoredEntity) (stats : Stats) : Bool × List StoredEntity × Stats :=
  match parsed with
  | .malformed _ => (false, store, stats)
  | .wellFormed entries =>
    if entries.isEmpty then (false, store, stats)
    else
      match entries.foldl (etl_step (ofac_process_entity recHash now)) (store, stats) with
      | (store', stats') => (true, store', stats')

/-- The result of `ET.fromstring` plus element search on a UN feed: the
`INDIVIDUAL` elements and the `ENTITY` elements. -/
inductive UnParsed
  | malformed (err : Str)
  | wellFormed (individuals : List EntryOutcome) (entities : List EntryOutcome)
deriving DecidableEq

/-- A successfully downloaded UN feed. -/
structure UnDownload where
  raw : Str
  parsed : UnParsed
deriving DecidableEq

/-- Embedding of `UNParserFinal.parse_un_xml` (lines 330-388): `False` only
on malformed XML; there is no emptiness check, so a feed with zero
individuals and zero entities still returns `True`. -/
def parse_un_xml (recHash : EntityData → ℕ) (now : ℕ) (parsed : UnParsed)
    (store : List StoredEntity) (stats : Stats) : Bool × List StoredEntity × Stats :=
  match parsed with
  | .malformed _ => (false, store, stats)
  | .wellFormed individuals entities =>
    match (individuals ++ entities).foldl (etl_step (un_process_entity recHash now)) (store, stats) with
    | (store', stats') => (true, store', stats')

/-- The durable state the ETL reads and writes: the entity store and the run
ledger, each in insertion order. -/
structure EtlState where
  entities : List StoredEntity
  runs : List RunRec
deriving DecidableEq

/-- Model of `db.query(UpdateLog).filter(UpdateLog.source == s)
.order_by(UpdateLog.update_date.desc()).first()`: the run for `s` with the
greatest `update_date`, later insertions winning ties. -/
def lastRunFor (s : Source) (runs : List RunRec) : Option RunRec :=
  runs.foldl
    (fun acc r =>
      if r.source = s then
        match acc with
        | none => some r
        | some b => if b.update_date ≤ r.update_date then some r else some b
      else acc)
    none

/-- The change-detection test of `run_ofac_update` / `run_un_update`:
`last_update and last_update.file_hash == file_hash`.  Note the query is not
filtered by status. -/
def hashMatches (s : Source) (h : ℕ) (runs : List RunRec) : Bool :=
  match lastRunFor s runs with
  | some r => decide (r.file_hash = some h)
  | none => false

/-- `'; '.join(self.stats['errors']) if self.stats['errors'] else None`. -/
def joinErrors (errs : List Str) : Option Str :=
  if errs = [] then none else some (List.intercalate "; ".toList errs)

/-- The dictionary returned by `run_ofac_update` / `run_un_update`. -/
inductive RunOutcome
  | no_changes (h : ℕ)
  | run_success (st : Stats)
  | run_failed (st : Stats)
  | run_error (err : Str)
deriving DecidableEq

def download_error_msg : Str := "No se pudo descargar el archivo XML".toList

/-- Embedding of `OFACParserFinal.run_ofac_update` (lines 393-456): download,
fingerprint comparison against the most recent OFAC run, parse, and the
ledger append; `download = none` models the download returning `None`, which
raises into the outer `except` that records a FAILED run with no
fingerprint. -/
def run_ofac_update (md5 : Str → ℕ) (recHash : EntityData → ℕ) (now : ℕ)
    (download : Option OfacDownload) (st : EtlState) : RunOutcome × EtlState :=
  match download with
  | none =>
    (RunOutcome.run_error download_error_msg,
     { st with
        runs := st.runs ++
          [{ source := Source.OFAC, update_date := now, records_added := 0,
             records_updated := 0, records_deleted := 0, file_hash := none,
             status := RunStatus.FAILED, error_message := some download_error_msg }] })
  | some dl =>
    if hashMatches Source.OFAC (md5 dl.raw) st.runs then
      (RunOutcome.no_changes (md5 dl.raw), st)
    else
      match parse_ofac_xml recHash now dl.parsed st.entities Stats.init with
      | (success, ents, stats) =>
        ((if success then RunOutcome.run_success stats else RunOutcome.run_failed stats),
         { entities := ents,
           runs := st.runs ++
            [{ source := Source.OFAC, update_date := now,
               records_added := stats.entities_added,
               records_updated := stats.entities_updated,
               records_deleted := stats.entities_deleted,
               file_hash := some (md5 dl.raw),
               status := if success then RunStatus.SUCCESS else RunStatus.FAILED,
               error_message := joinErrors stats.errors }] })

/-- Embedding of `UNParserFinal.run_un_update` (lines 510-573). -/
def run_un_update (md5 : Str → ℕ) (recHash : EntityData → ℕ) (now : ℕ)
    (download : Option UnDownload) (st : EtlState) : RunOutcome × EtlState :=
  match download with
  | none =>
    (RunOutcome.run_error download_error_msg,
     { st with
        runs := st.runs ++
          [{ source := Source.UN, update_date := now, records_added := 0,
             records_updated := 0, records_deleted := 0, file_hash := none,
             status := RunStatus.FAILED, error_message := some download_error_msg }] })
  | some dl =>
    if hashMatches Source.UN (md5 dl.raw) st.runs then
      (RunOutcome.no_changes (md5 dl.raw), st)
    else
      match parse_un_xml recHash now dl.parsed st.entities Stats.init with
      | (success, ents, stats) =>
        ((if success then RunOutcome.run_success stats else RunOutcome.run_failed stats),
         { entities := ents,
           runs := st.runs ++
            [{ source := Source.UN, update_date := now,
               records_added := stats.entities_added,
               records_updated := stats.entities_updated,
               records_deleted := stats.entities_deleted,
               file_hash := some (md5 dl.raw),
               status := if success then RunStatus.SUCCESS else RunStatus.FAILED,
               error_message := joinErrors stats.errors }] })

/-! ## Orchestration (`app/api/etl_routes.py`, `app/etl/scheduler.py`) -/

/-- Embedding of the concurrency gate of `trigger_manual_update`
(`app/api/etl_routes.py`, lines 163-173): take the first ledger row for the
source dated within the last 30 minutes and reject (HTTP 409) exactly when
that row's status is `IN_PROGRESS`.  Returns `true` when the trigger is
accepted ("started"). -/
def trigger_manual_update (now : ℕ) (s : Source) (runs : List RunRec) : Bool :=
  match (runs.filter (fun r => decide (r.source = s) && decide (now - 1800 ≤ r.update_date))).head? with
  | some r => decide (¬ r.status = RunStatus.IN_PROGRESS)
  | none => true

/-- Embedding of `ETLScheduler.health_check_job` (`app/etl/scheduler.py`,
lines 213-244): count the ledger rows of the last 7 days — any status — and
raise the warning notification exactly when that count is zero.  Returns
`true` when the warning is sent; the job only reads the ledger. -/
def health_check_job (now : ℕ) (runs : List RunRec) : Bool :=
  decide ((runs.filter (fun r => decide (now - 7 * 86400 ≤ r.update_date))).length = 0)

/-- The health-check warning condition exactly as the specification words it
(claim C9): no SUCCESS run in the last 7 days, or some FAILED run in the
last 24 hours. -/
def spec_health_warn (now : ℕ) (runs : List RunRec) : Bool :=
  !(runs.any (fun r => decide (r.status = RunStatus.SUCCESS) && decide (now - 7 * 86400 ≤ r.update_date)))
  || runs.any (fun r => decide (r.status = RunStatus.FAILED) && decide (now - 86400 ≤ r.update_date))

/-- Specification-side helper for claim C2's tie-break wording: the best
alias is the first alias encountered that attains the maximal (positive)
score. -/
def spec_first_best_alias (q : Str) : List AliasRow → ℚ × Option Str
  | [] => (0, none)
  | a :: as =>
    if calculate_similarity_score q a.alias_name ≥ (spec_first_best_alias q as).1 ∧
        calculate_similarity_score q a.alias_name > 0 then
      (calculate_similarity_score q a.alias_name, some a.alias_name)
    else spec_first_best_alias q as

/-- Specification-side definition for claim C3: the most recent SUCCESS run
for a source, which is what the spec says the feed fingerprint is compared
against. -/
def lastSuccessFor (s : Source) (runs : List RunRec) : Option RunRec :=
  lastRunFor s (runs.filter (fun r => decide (r.status = RunStatus.SUCCESS)))

/-- Whether a run outcome is the NO_CHANGE short-circuit. -/
def RunOutcome.isNoChanges : RunOutcome → Bool
  | no_changes _ => true
  | _ => false

/-- The error message an entry contributes to the run's error list, if any. -/
def entry_error : EntryOutcome → Option Str
  | .failure e => some e
  | .record _ => none

/-- Specification-side predicate for claim C10: the query text occurs as a
case-insensitive substring of the entity's name, of one of its alias names,
of one of its address fields, or of one of its document numbers. -/
def entity_has_substring (q : Str) (e : StoredEntity) : Bool :=
  isSubstrOf (lowerStr q) (lowerStr e.name)
  || e.aliases.any (fun a => isSubstrOf (lowerStr q) (lowerStr a.alias_name))
  || e.addresses.any (fun a =>
       isSubstrOf (lowerStr q) (lowerStr a.full_address)
       || (match a.city with
           | some c => isSubstrOf (lowerStr q) (lowerStr c)
           | none => false)
       || isSubstrOf (lowerStr q) (lowerStr a.country))
  || e.documents.any (fun d => isSubstrOf (lowerStr q) (lowerStr d.doc_number))

/-! ## Concrete fixtures used by witnesses and counterexamples -/

/-- A concrete stand-in for the MD5 feed fingerprint in closed statements. -/
def md5len : Str → ℕ := List.length

/-- A concrete stand-in for the record content hash in closed statements. -/
def recHashNameLen : EntityData → ℕ := fun d => d.name.length

/-- A concrete OFAC record with source_id "7" and alias "A". -/
def recAliasA : EntityData :=
  { source_id := "7".toList
    name := "Jane Doe".toList
    type_ := EntityType.INDIVIDUAL
    aliases := [⟨"A".toList, "UNKNOWN".toList⟩]
    addresses := []
    documents := []
    nationalities := []
    birth_info := none
    program := []
    remarks := []
    committee := []
    resolution := []
    listed_on := none }

/-- The same record with its alias list changed from ["A"] to ["B"]. -/
def recAliasB : EntityData :=
  { recAliasA with aliases := [⟨"B".toList, "UNKNOWN".toList⟩] }

/-- A feed containing exactly the record with alias "A"
(`md5len` fingerprint 1). -/
def feedAliasA : OfacDownload := ⟨"a".toList, OfacParsed.wellFormed [EntryOutcome.record recAliasA]⟩

/-- A changed feed containing the record with alias "B"
(`md5len` fingerprint 2). -/
def feedAliasB : OfacDownload := ⟨"bb".toList, OfacParsed.wellFormed [EntryOutcome.record recAliasB]⟩

/-- A ledger whose most recent OFAC run is a FAILED run with fingerprint 2,
while the most recent SUCCESS run has fingerprint 1. -/
def stC3 : EtlState :=
  { entities := []
    runs :=
      [{ source := Source.OFAC, update_date := 100, records_added := 1,
         records_updated := 0, records_deleted := 0, file_hash := some 1,
         status := RunStatus.SUCCESS, error_message := none },
       { source := Source.OFAC, update_date := 200, records_added := 0,
         records_updated := 0, records_deleted := 0, file_hash := some 2,
         status := RunStatus.FAILED, error_message := none }] }

/-- A ledger whose only OFAC run is a SUCCESS run with fingerprint 1
(the fingerprint of `feedAliasA` under `md5len`). -/
def stNoChange : EtlState :=
  { entities := []
    runs :=
      [{ source := Source.OFAC, update_date := 100, records_added := 1,
         records_updated := 0, records_deleted := 0, file_hash := some 1,
         status := RunStatus.SUCCESS, error_message := none }] }

/-- An existing stored OFAC entity with source_id "7" and a stale
`hash_signature` of 5. -/
def entOld : StoredEntity :=
  { source := Source.OFAC
    source_id := "7".toList
    name := "Old Name".toList
    type_ := EntityType.INDIVIDUAL
    status := EntStatus.ACTIVE
    hash_signature := 5
    last_updated := 0
    listed_on := none
    remarks := []
    committee := []
    resolution := []
    aliases := [⟨"A".toList, "UNKNOWN".toList⟩]
    addresses := []
    documents := []
    nationalities := []
    births := []
    sanctions := [] }

/-- A store entity named "Jane" with one alias, used in witnesses. -/
def entJane : StoredEntity :=
  { source := Source.OFAC
    source_id := "1".toList
    name := "Jane".toList
    type_ := EntityType.INDIVIDUAL
    status := EntStatus.ACTIVE
    hash_signature := 0
    last_updated := 0
    listed_on := none
    remarks := []
    committee := []
    resolution := []
    aliases := [⟨"JJ".toList, "UNKNOWN".toList⟩]
    addresses := []
    documents := []
    nationalities := []
    births := []
    sanctions := [] }

/-! ## Theorems -/

theorem foldr_max_nonneg (l : List ℚ) : 0 ≤ l.foldr max 0 := by
  induction l with
  | nil => simp
  | cons x l ih => exact le_trans ih (le_max_right x _)

theorem score_nonneg (q t : Str) : 0 ≤ calculate_similarity_score q t := by
  unfold calculate_similarity_score
  split_ifs <;> try norm_num
  positivity

/-- Claim C1, counterexample: the empty query and the empty text are equal
ignoring case, yet the code's falsy guard returns 0.0, not 1.0. -/
theorem C1_counterexample :
    lowerStr [] = lowerStr ([] : Str) ∧
      calculate_similarity_score [] [] = 0 ∧ (0 : ℚ) ≠ 1 :=
  ⟨rfl, by decide, by norm_num⟩

/-- Claim C1 (amended): for non-empty query and text the per-field score is
exactly the specification's case chain (equality ignoring case 1.0, substring
0.8, token-set overlap `|inter|/|union| * 0.6`, else 0.0); when either side
is empty the score is 0.0; and the three concrete examples behave as
claimed. -/
theorem C1_score_characterization :
    (∀ q t : Str, q ≠ [] → t ≠ [] →
        calculate_similarity_score q t = spec_score q t) ∧
    (∀ q t : Str, q = [] ∨ t = [] → calculate_similarity_score q t = 0) ∧
    calculate_similarity_score "Jane Doe".toList "Jane Doe".toList = 1 ∧
    calculate_similarity_score "Jane Doe".toList "Doe Enterprises".toList ≤ 3/5 * (1/3) ∧
    calculate_similarity_score "Jane Doe".toList "Jan Doeson".toList = 0 := by
  refine ⟨?_, ?_, by decide, ?_, by decide⟩
  · intro q t hq ht
    unfold calculate_similarity_score spec_score
    rw [if_neg (by simp [hq, ht])]
  · intro q t h
    unfold calculate_similarity_score
    rw [if_pos h]
  · unfold calculate_similarity_score
    rw [if_neg (by decide), if_neg (by decide), if_neg (by decide), if_pos (by decide)]
    rw [show (wordInter (lowerStr "Jane Doe".toList) (lowerStr "Doe Enterprises".toList)).length
          = 1 by decide]
    rw [show wordUnionCard (lowerStr "Jane Doe".toList) (lowerStr "Doe Enterprises".toList)
          = 3 by decide]
    norm_num

/-- Witness for C1: the characterization applied at a concrete non-empty
input. -/
theorem C1_witness :
    calculate_similarity_score "Ann".toList "ANN".toList
      = spec_score "Ann".toList "ANN".toList :=
  C1_score_characterization.1 "Ann".toList "ANN".toList (by decide) (by decide)

theorem alias_best_go (q : Str) (as : List AliasRow) (acc : ℚ × Option Str)
    (h : 0 ≤ acc.1) :
    (as.foldl
        (fun acc al =>
          if calculate_similarity_score q al.alias_name > acc.1 then
            (calculate_similarity_score q al.alias_name, some al.alias_name)
          else acc) acc).1
      = max acc.1 ((as.map (fun a => calculate_similarity_score q a.alias_name)).foldr max 0) := by
  induction as generalizing acc with
  | nil => simpa using (max_eq_left h).symm
  | cons a as ih =>
    simp only [List.foldl_cons, List.map_cons, List.foldr_cons]
    by_cases hc : calculate_similarity_score q a.alias_name > acc.1
    · rw [if_pos hc, ih _ (le_trans h (le_of_lt hc))]
      exact (max_eq_right (le_trans (le_of_lt hc) (le_max_left _ _))).symm
    · rw [if_neg hc, ih _ h]
      push_neg at hc
      rw [← max_assoc, max_eq_left hc]

theorem alias_best_fst (q : Str) (as : List AliasRow) :
    (alias_best q as).1
      = max 0 ((as.map (fun a => calculate_similarity_score q a.alias_name)).foldr max 0) := by
  unfold alias_best
  exact alias_best_go q as (0, none) le_rfl

theorem spec_first_best_alias_nonneg (q : Str) (as : List AliasRow) :
    0 ≤ (spec_first_best_alias q as).1 := by
  induction as with
  | nil => simp [spec_first_best_alias]
  | cons a as ih =>
    unfold spec_first_best_alias
    split_ifs with h
    · exact le_of_lt h.2
    · exact ih

theorem spec_first_best_alias_pos (q : Str) (as : List AliasRow) (v : Str)
    (h : (spec_first_best_alias q as).2 = some v) :
    0 < (spec_first_best_alias q as).1 := by
  induction as with
  | nil => simp [spec_first_best_alias] at h
  | cons a as ih =>
    unfold spec_first_best_alias at h ⊢
    split_ifs at h ⊢ with hc
    · exact hc.2
    · exact ih h

theorem spec_first_best_alias_some (q : Str) (as : List AliasRow)
    (h : 0 < (spec_first_best_alias q as).1) :
    ∃ v, (spec_first_best_alias q as).2 = some v := by
  induction as with
  | nil => simp [spec_first_best_alias] at h
  | cons a as ih =>
    unfold spec_first_best_alias at h ⊢
    split_ifs at h ⊢ with hc
    · exact ⟨a.alias_name, rfl⟩
    · exact ih h

theorem spec_first_best_alias_nil (q : Str) :
    spec_first_best_alias q [] = (0, none) := rfl

theorem spec_first_best_alias_cons (q : Str) (a : AliasRow) (as : List AliasRow) :
    spec_first_best_alias q (a :: as)
      = if calculate_similarity_score q a.alias_name ≥ (spec_first_best_alias q as).1 ∧
            calculate_similarity_score q a.alias_name > 0 then
          (calculate_similarity_score q a.alias_name, some a.alias_name)
        else spec_first_best_alias q as := rfl

theorem alias_best_eq_spec (q : Str) (as : List AliasRow) :
    alias_best q as = spec_first_best_alias q as := by
  unfold alias_best
  suffices H : ∀ (acc : ℚ × Option Str), 0 ≤ acc.1 →
      (as.foldl
        (fun acc al =>
          if calculate_similarity_score q al.alias_name > acc.1 then
            (calculate_similarity_score q al.alias_name, some al.alias_name)
          else acc) acc)
      = (if (spec_first_best_alias q as).1 > acc.1 then spec_first_best_alias q as else acc) by
    rw [H (0, none) le_rfl]
    rcases lt_or_eq_of_le (spec_first_best_alias_nonneg q as) with hpos | hzero
    · rw [if_pos hpos]
    · rw [if_neg (by rw [← hzero]; exact lt_irrefl 0)]
      have h2 : (spec_first_best_alias q as).2 = none := by
        by_contra hne
        obtain ⟨v, hv⟩ := Option.ne_none_iff_exists'.mp hne
        exact absurd (spec_first_best_alias_pos q as v hv) (by rw [← hzero]; exact lt_irrefl 0)
      exact Prod.ext (by rw [← hzero]) (by rw [h2])
  induction as with
  | nil =>
    intro acc hacc
    simp only [List.foldl_nil, spec_first_best_alias_nil]
    rw [if_neg (not_lt_of_le hacc)]
  | cons a as ih =>
    intro acc hacc
    simp only [List.foldl_cons]
    by_cases hc : calculate_similarity_score q a.alias_name > acc.1
    · rw [if_pos hc, ih _ (le_trans hacc (le_of_lt hc))]
      dsimp only
      by_cases hr : (spec_first_best_alias q as).1 > calculate_similarity_score q a.alias_name
      · have hcons : spec_first_best_alias q (a :: as) = spec_first_best_alias q as := by
          rw [spec_first_best_alias_cons,
            if_neg (by push_neg; intro hge; exact absurd hge (not_le_of_lt hr))]
        rw [hcons, if_pos hr, if_pos (lt_trans hc hr)]
      · push_neg at hr
        have hcons : spec_first_best_alias q (a :: as)
            = (calculate_similarity_score q a.alias_name, some a.alias_name) := by
          rw [spec_first_best_alias_cons, if_pos ⟨hr, lt_of_le_of_lt hacc hc⟩]
        rw [hcons]
        dsimp only
        rw [if_neg (not_lt_of_le hr), if_pos hc]
    · rw [if_neg hc, ih _ hacc]
      push_neg at hc
      by_cases hh : calculate_similarity_score q a.alias_name ≥ (spec_first_best_alias q as).1 ∧
          calculate_similarity_score q a.alias_name > 0
      · have hcons : spec_first_best_alias q (a :: as)
            = (calculate_similarity_score q a.alias_name, some a.alias_name) := by
          rw [spec_first_best_alias_cons, if_pos hh]
        rw [hcons]
        dsimp only
        rw [if_neg (not_lt_of_le hc), if_neg (not_lt_of_le (le_trans hh.1 hc))]
      · have hcons : spec_first_best_alias q (a :: as) = spec_first_best_alias q as := by
          rw [spec_first_best_alias_cons, if_neg hh]
        rw [hcons]

theorem spec_first_best_alias_first (q : Str) (as : List AliasRow) (v : Str)
    (h : (spec_first_best_alias q as).2 = some v) :
    ∃ l1 a l2, as = l1 ++ a :: l2 ∧ a.alias_name = v ∧
      calculate_similarity_score q a.alias_name = (spec_first_best_alias q as).1 ∧
      ∀ b ∈ l1, calculate_similarity_score q b.alias_name < (spec_first_best_alias q as).1 := by
  induction as with
  | nil => simp [spec_first_best_alias] at h
  | cons a as ih =>
    by_cases hc : calculate_similarity_score q a.alias_name ≥ (spec_first_best_alias q as).1 ∧
        calculate_similarity_score q a.alias_name > 0
    · refine ⟨[], a, as, rfl, ?_, ?_, by simp⟩
      · have hv : (spec_first_best_alias q (a :: as)).2 = some a.alias_name := by
          rw [spec_first_best_alias_cons, if_pos hc]
        rw [hv] at h
        exact (Option.some_inj.mp h)
      · rw [spec_first_best_alias_cons, if_pos hc]
    · have hrw : spec_first_best_alias q (a :: as) = spec_first_best_alias q as := by
        rw [spec_first_best_alias_cons, if_neg hc]
      rw [hrw] at h ⊢
      obtain ⟨l1, b, l2, hdec, hname, hsc, hlt⟩ := ih h
      refine ⟨a :: l1, b, l2, by rw [hdec]; rfl, hname, hsc, ?_⟩
      intro c hcmem
      rcases List.mem_cons.mp hcmem with hca | hcl
      · subst hca
        rcases not_and_or.mp hc with h1 | h2
        · exact lt_of_not_le h1
        · have hz : calculate_similarity_score q c.alias_name = 0 :=
            le_antisymm (le_of_not_lt h2) (score_nonneg q c.alias_name)
          rw [hz]
          exact spec_first_best_alias_pos q as v h
      · exact hlt c hcl

/-- Claim C2: per entity, the effective score of `best_match` is the larger
of the name score and the maximum alias score (empty alias lists giving 0);
ties between name and alias resolve to the name field; when an alias wins,
the matched alias is the first alias encountered that attains the maximum;
results below `min_score` are excluded from the returned list; and the
returned list is ordered by descending score. -/
theorem C2_search_ranking (q : Str) (min_score : ℚ) (es : List StoredEntity)
    (e : StoredEntity) :
    ((best_match q e).score
        = max (calculate_similarity_score q e.name)
            ((e.aliases.map (fun a => calculate_similarity_score q a.alias_name)).foldr max 0)) ∧
    (((e.aliases.map (fun a => calculate_similarity_score q a.alias_name)).foldr max 0
        ≤ calculate_similarity_score q e.name) →
      (best_match q e).matched_field = MatchedField.nameField ∧
      (best_match q e).matched_value = some e.name) ∧
    ((best_match q e).matched_field = MatchedField.aliasField →
      ∃ l1 a l2, e.aliases = l1 ++ a :: l2 ∧
        (best_match q e).matched_value = some a.alias_name ∧
        calculate_similarity_score q a.alias_name = (best_match q e).score ∧
        ∀ b ∈ l1, calculate_similarity_score q b.alias_name < (best_match q e).score) ∧
    (∀ p ∈ sort_results (score_and_filter q min_score es),
        min_score ≤ p.2.score ∧ p.2 = best_match q p.1) ∧
    List.Pairwise (fun p1 p2 => p2.2.score ≤ p1.2.score)
      (sort_results (score_and_filter q min_score es)) := by
  have hM0 : (0:ℚ)
      ≤ (e.aliases.map (fun a => calculate_similarity_score q a.alias_name)).foldr max 0 :=
    foldr_max_nonneg _
  have hab : (alias_best q e.aliases).1
      = (e.aliases.map (fun a => calculate_similarity_score q a.alias_name)).foldr max 0 := by
    rw [alias_best_fst]
    exact max_eq_right hM0
  refine ⟨?_, ?_, ?_, ?_, ?_⟩
  · unfold best_match
    by_cases hc : calculate_similarity_score q e.name ≥ (alias_best q e.aliases).1
    · rw [if_pos hc]
      dsimp only
      rw [hab] at hc
      exact (max_eq_left hc).symm
    · rw [if_neg hc]
      dsimp only
      push_neg at hc
      rw [hab] at hc
      rw [hab]
      exact (max_eq_right (le_of_lt hc)).symm
  · intro hle
    unfold best_match
    rw [if_pos (by rw [hab]; exact hle)]
    exact ⟨rfl, rfl⟩
  · intro hf
    unfold best_match at hf ⊢
    by_cases hc : calculate_similarity_score q e.name ≥ (alias_best q e.aliases).1
    · rw [if_pos hc] at hf
      exact absurd hf (by simp)
    · rw [if_neg hc] at hf ⊢
      dsimp only
      push_neg at hc
      have hpos : 0 < (alias_best q e.aliases).1 :=
        lt_of_le_of_lt (score_nonneg q e.name) hc
      rw [alias_best_eq_spec] at hpos
      obtain ⟨v, hv⟩ := spec_first_best_alias_some q e.aliases hpos
      obtain ⟨l1, a, l2, hdec, hname, hsc, hlt⟩ :=
        spec_first_best_alias_first q e.aliases v hv
      rw [alias_best_eq_spec]
      exact ⟨l1, a, l2, hdec, by rw [hv, hname], hsc, hlt⟩
  · intro p hp
    unfold sort_results at hp
    rw [List.mem_mergeSort] at hp
    unfold score_and_filter at hp
    rw [List.mem_filterMap] at hp
    obtain ⟨e', _, heq⟩ := hp
    by_cases hcond : min_score ≤ (best_match q e').score
    · rw [if_pos hcond] at heq
      obtain rfl := Option.some_inj.mp heq
      exact ⟨hcond, rfl⟩
    · rw [if_neg hcond] at heq
      exact absurd heq (by simp)
  · have hs := @List.sorted_mergeSort (StoredEntity × SearchMatch)
      (fun p1 p2 => decide (p2.2.score ≤ p1.2.score))
      (fun a b c hab hbc => by
        simp only [decide_eq_true_eq] at hab hbc ⊢
        exact le_trans hbc hab)
      (fun a b => by
        simp only [Bool.or_eq_true, decide_eq_true_eq]
        exact le_total b.2.score a.2.score)
      (score_and_filter q min_score es)
    unfold sort_results
    exact hs.imp (fun hab => by simpa using hab)

/-- Witness for C2 at a concrete entity: the alias maximum is below the name
score, so the name field is matched. -/
theorem C2_witness :
    (best_match "Jane".toList entJane).matched_field = MatchedField.nameField ∧
    (best_match "Jane".toList entJane).matched_value = some entJane.name :=
  (C2_search_ranking "Jane".toList 0 [entJane] entJane).2.1 (by decide)

theorem replaceFirstBy_none {α : Type} (p : α → Bool) (f : α → α) (l : List α) :
    replaceFirstBy p f l = none ↔ ∀ x ∈ l, p x = false := by
  induction l with
  | nil => simp [replaceFirstBy]
  | cons a l ih =>
    simp only [replaceFirstBy]
    by_cases hp : p a
    · rw [if_pos hp]
      simp [hp]
    · rw [if_neg hp]
      rw [Option.map_eq_none', ih]
      constructor
      · intro h x hx
        rcases List.mem_cons.mp hx with rfl | hxl
        · exact Bool.eq_false_iff.mpr hp
        · exact h x hxl
      · intro h x hx
        exact h x (List.mem_cons_of_mem a hx)

theorem replaceFirstBy_some {α : Type} (p : α → Bool) (f : α → α) (l l' : List α)
    (h : replaceFirstBy p f l = some l') :
    ∃ pre x post, l = pre ++ x :: post ∧ p x = true ∧ (∀ y ∈ pre, p y = false) ∧
      l' = pre ++ f x :: post := by
  induction l generalizing l' with
  | nil => simp [replaceFirstBy] at h
  | cons a l ih =>
    simp only [replaceFirstBy] at h
    by_cases hp : p a
    · rw [if_pos hp] at h
      obtain rfl := Option.some_inj.mp h
      exact ⟨[], a, l, rfl, hp, by simp, rfl⟩
    · rw [if_neg hp] at h
      obtain ⟨l'', hl'', rfl⟩ := Option.map_eq_some'.mp h
      obtain ⟨pre, x, post, hdec, hpx, hpre, hres⟩ := ih l'' hl''
      refine ⟨a :: pre, x, post, by rw [hdec]; rfl, hpx, ?_, by rw [hres]; rfl⟩
      intro y hy
      rcases List.mem_cons.mp hy with rfl | hyl
      · exact Bool.eq_false_iff.mpr hp
      · exact hpre y hyl

theorem replaceFirstBy_decomp {α : Type} (p : α → Bool) (f : α → α)
    (pre : List α) (x : α) (post : List α)
    (hpre : ∀ y ∈ pre, p y = false) (hx : p x = true) :
    replaceFirstBy p f (pre ++ x :: post) = some (pre ++ f x :: post) := by
  induction pre with
  | nil =>
    simp only [List.nil_append, replaceFirstBy]
    rw [if_pos hx]
  | cons a pre ih =>
    simp only [List.cons_append, replaceFirstBy, List.append_eq]
    rw [if_neg (by simp [hpre a (List.mem_cons_self a pre)]),
      ih (fun y hy => hpre y (List.mem_cons_of_mem a hy))]
    rfl

theorem ofac_matches_update (d : EntityData) (now : ℕ) (e : StoredEntity) :
    ofac_matches d (ofac_update_existing now d e) = ofac_matches d e := rfl

/-- Claim C4: after reconciliation of a record, the matched entity's five
child collections (aliases, addresses, documents, nationalities, sanctions)
are exactly those built from the incoming record — this holds for both the
update and the insert branch of both adapters, provided the store holds at
most one entity for the record's `(source, source_id)` key; and concretely,
re-ingesting a feed whose record's alias list changed from `["A"]` to
`["B"]` leaves that entity with exactly the alias `"B"`. -/
theorem C4_child_replacement :
    (∀ (recHash : EntityData → ℕ) (now : ℕ) (d : EntityData)
        (store : List StoredEntity) (stats : Stats),
      (store.filter (fun e => ofac_matches d e)).length ≤ 1 →
      ∀ e' ∈ (ofac_process_entity recHash now d store stats).1,
        ofac_matches d e' = true →
        e'.aliases = d.aliases ∧ e'.addresses = addr_rows d.addresses ∧
        e'.documents = d.documents ∧ e'.nationalities = d.nationalities ∧
        e'.sanctions = [ofac_sanction d]) ∧
    (∀ (recHash : EntityData → ℕ) (now : ℕ) (d : EntityData)
        (store : List StoredEntity) (stats : Stats),
      (store.filter (fun e => un_matches d e)).length ≤ 1 →
      ∀ e' ∈ (un_process_entity recHash now d store stats).1,
        un_matches d e' = true →
        e'.aliases = d.aliases ∧ e'.addresses = addr_rows d.addresses ∧
        e'.documents = d.documents ∧ e'.nationalities = d.nationalities ∧
        e'.sanctions = [un_sanction d]) ∧
    ((run_ofac_update md5len recHashNameLen 200 (some feedAliasB)
        (run_ofac_update md5len recHashNameLen 100 (some feedAliasA)
          ⟨[], []⟩).2).2.entities.map (fun e => e.aliases))
      = [[⟨"B".toList, "UNKNOWN".toList⟩]] := by
  refine ⟨?_, ?_, by decide⟩
  · intro recHash now d store stats huniq e' he' hm
    unfold ofac_process_entity at he'
    cases hrep : replaceFirstBy (fun e => ofac_matches d e) (ofac_update_existing now d) store with
    | none =>
      rw [hrep] at he'
      dsimp only at he'
      rcases List.mem_append.mp he' with hold | hnew
      · exact absurd hm (by
          rw [(replaceFirstBy_none _ _ store).mp hrep e' hold]
          simp)
      · obtain rfl := List.mem_singleton.mp hnew
        exact ⟨rfl, rfl, rfl, rfl, rfl⟩
    | some store' =>
      rw [hrep] at he'
      dsimp only at he'
      obtain ⟨pre, x, post, hdec, hpx, hpre, hres⟩ :=
        replaceFirstBy_some _ _ store store' hrep
      rw [hres] at he'
      rcases List.mem_append.mp he' with hpree | hrest
      · exact absurd hm (by rw [hpre e' hpree]; simp)
      · rcases List.mem_cons.mp hrest with rfl | hpost
        · exact ⟨rfl, rfl, rfl, rfl, rfl⟩
        · exfalso
          have hx : e' ∈ post.filter (fun e => ofac_matches d e) :=
            List.mem_filter.mpr ⟨hpost, hm⟩
          cases hpf : post.filter (fun e => ofac_matches d e) with
          | nil => rw [hpf] at hx; exact absurd hx (List.not_mem_nil e')
          | cons y ys =>
            rw [hdec, List.filter_append, List.filter_cons_of_pos hpx, hpf] at huniq
            simp only [List.length_append, List.length_cons] at huniq
            omega
  · intro recHash now d store stats huniq e' he' hm
    unfold un_process_entity at he'
    cases hrep : replaceFirstBy (fun e => un_matches d e) (un_update_existing now d) store with
    | none =>
      rw [hrep] at he'
      dsimp only at he'
      rcases List.mem_append.mp he' with hold | hnew
      · exact absurd hm (by
          rw [(replaceFirstBy_none _ _ store).mp hrep e' hold]
          simp)
      · obtain rfl := List.mem_singleton.mp hnew
        exact ⟨rfl, rfl, rfl, rfl, rfl⟩
    | some store' =>
      rw [hrep] at he'
      dsimp only at he'
      obtain ⟨pre, x, post, hdec, hpx, hpre, hres⟩ :=
        replaceFirstBy_some _ _ store store' hrep
      rw [hres] at he'
      rcases List.mem_append.mp he' with hpree | hrest
      · exact absurd hm (by rw [hpre e' hpree]; simp)
      · rcases List.mem_cons.mp hrest with rfl | hpost
        · exact ⟨rfl, rfl, rfl, rfl, rfl⟩
        · exfalso
          have hx : e' ∈ post.filter (fun e => un_matches d e) :=
            List.mem_filter.mpr ⟨hpost, hm⟩
          cases hpf : post.filter (fun e => un_matches d e) with
          | nil => rw [hpf] at hx; exact absurd hx (List.not_mem_nil e')
          | cons y ys =>
            rw [hdec, List.filter_append, List.filter_cons_of_pos hpx, hpf] at huniq
            simp only [List.length_append, List.length_cons] at huniq
            omega

/-- Witness for C4: the OFAC replacement property applied at a concrete
one-entity store. -/
theorem C4_witness :
    (ofac_update_existing 50 recAliasB entOld).aliases = recAliasB.aliases ∧
    (ofac_update_existing 50 recAliasB entOld).addresses = addr_rows recAliasB.addresses ∧
    (ofac_update_existing 50 recAliasB entOld).documents = recAliasB.documents ∧
    (ofac_update_existing 50 recAliasB entOld).nationalities = recAliasB.nationalities ∧
    (ofac_update_existing 50 recAliasB entOld).sanctions = [ofac_sanction recAliasB] :=
  C4_child_replacement.1 recHashNameLen 50 recAliasB [entOld] Stats.init (by decide)
    (ofac_update_existing 50 recAliasB entOld) (by decide) (by decide)

/-- Claim C8, counterexample: reconciling an incoming record onto an
existing entity leaves the stale `hash_signature` (5) in place even though
the record's content hash is 8 and the status does change to UPDATED — the
code never recomputes `hash_signature` in the update branch. -/
theorem C8_counterexample :
    ((ofac_process_entity recHashNameLen 50 recAliasB [entOld] Stats.init).1.map
        (fun e => e.hash_signature)) = [5] ∧
    recHashNameLen recAliasB = 8 ∧
    ((ofac_process_entity recHashNameLen 50 recAliasB [entOld] Stats.init).1.map
        (fun e => e.status)) = [EntStatus.UPDATED] := by decide

/-- Claim C8 (amended): when an incoming record matches an existing entity
by `(source, source_id)`, both adapters update the scalar fields and set the
status to UPDATED (UN also updating its extra scalars), but the content
fingerprint `hash_signature` is left unchanged — it is not recomputed from
the incoming record. -/
theorem C8_update_branch :
    (∀ (recHash : EntityData → ℕ) (now : ℕ) (d : EntityData)
        (pre : List StoredEntity) (e : StoredEntity) (post : List StoredEntity) (stats : Stats),
      (∀ y ∈ pre, ofac_matches d y = false) → ofac_matches d e = true →
      (ofac_process_entity recHash now d (pre ++ e :: post) stats).1
          = pre ++ ofac_update_existing now d e :: post ∧
      (ofac_update_existing now d e).name = d.name ∧
      (ofac_update_existing now d e).type_ = d.type_ ∧
      (ofac_update_existing now d e).last_updated = now ∧
      (ofac_update_existing now d e).status = EntStatus.UPDATED ∧
      (ofac_update_existing now d e).hash_signature = e.hash_signature ∧
      (ofac_process_entity recHash now d (pre ++ e :: post) stats).2
          = bump_children d { stats with entities_updated := stats.entities_updated + 1 }) ∧
    (∀ (recHash : EntityData → ℕ) (now : ℕ) (d : EntityData)
        (pre : List StoredEntity) (e : StoredEntity) (post : List StoredEntity) (stats : Stats),
      (∀ y ∈ pre, un_matches d y = false) → un_matches d e = true →
      (un_process_entity recHash now d (pre ++ e :: post) stats).1
          = pre ++ un_update_existing now d e :: post ∧
      (un_update_existing now d e).name = d.name ∧
      (un_update_existing now d e).remarks = d.remarks ∧
      (un_update_existing now d e).committee = d.committee ∧
      (un_update_existing now d e).resolution = d.resolution ∧
      (un_update_existing now d e).listed_on = d.listed_on ∧
      (un_update_existing now d e).status = EntStatus.UPDATED ∧
      (un_update_existing now d e).hash_signature = e.hash_signature) := by
  constructor
  · intro recHash now d pre e post stats hpre hx
    unfold ofac_process_entity
    rw [replaceFirstBy_decomp _ _ pre e post hpre hx]
    exact ⟨rfl, rfl, rfl, rfl, rfl, rfl, rfl⟩
  · intro recHash now d pre e post stats hpre hx
    unfold un_process_entity
    rw [replaceFirstBy_decomp _ _ pre e post hpre hx]
    exact ⟨rfl, rfl, rfl, rfl, rfl, rfl, rfl, rfl⟩

/-- Witness for C8: the update branch evaluated on a concrete store. -/
theorem C8_witness :
    (ofac_process_entity recHashNameLen 50 recAliasB ([] ++ entOld :: []) Stats.init).1
        = [] ++ ofac_update_existing 50 recAliasB entOld :: [] ∧
    (ofac_update_existing 50 recAliasB entOld).name = recAliasB.name ∧
    (ofac_update_existing 50 recAliasB entOld).type_ = recAliasB.type_ ∧
    (ofac_update_existing 50 recAliasB entOld).last_updated = 50 ∧
    (ofac_update_existing 50 recAliasB entOld).status = EntStatus.UPDATED ∧
    (ofac_update_existing 50 recAliasB entOld).hash_signature = entOld.hash_signature ∧
    (ofac_process_entity recHashNameLen 50 recAliasB ([] ++ entOld :: []) Stats.init).2
        = bump_children recAliasB
            { Stats.init with entities_updated := Stats.init.entities_updated + 1 } :=
  C8_update_branch.1 recHashNameLen 50 recAliasB [] entOld [] Stats.init
    (by intro y hy; exact absurd hy (List.not_mem_nil y)) (by decide)

theorem lastRunFor_go_mem (s : Source) (runs : List RunRec) :
    ∀ (acc : Option RunRec) (r : RunRec),
      runs.foldl
        (fun acc r =>
          if r.source = s then
            match acc with
            | none => some r
            | some b => if b.update_date ≤ r.update_date then some r else some b
          else acc) acc = some r → acc = some r ∨ r ∈ runs := by
  induction runs with
  | nil =>
    intro acc r hacc
    exact Or.inl hacc
  | cons x runs ih =>
    intro acc r hacc
    rw [List.foldl_cons] at hacc
    rcases ih _ r hacc with hstep | hmem
    · by_cases hsrc : x.source = s
      · rw [if_pos hsrc] at hstep
        cases acc with
        | none =>
          simp only at hstep
          exact Or.inr (by rw [← Option.some_inj.mp hstep]; exact List.mem_cons_self x runs)
        | some b =>
          simp only at hstep
          by_cases hd : b.update_date ≤ x.update_date
          · rw [if_pos hd] at hstep
            exact Or.inr (by rw [← Option.some_inj.mp hstep]; exact List.mem_cons_self x runs)
          · rw [if_neg hd] at hstep
            exact Or.inl hstep
      · rw [if_neg hsrc] at hstep
        exact Or.inl hstep
    · exact Or.inr (List.mem_cons_of_mem x hmem)

theorem lastRunFor_mem (s : Source) (runs : List RunRec) (r : RunRec)
    (h : lastRunFor s runs = some r) : r ∈ runs := by
  unfold lastRunFor at h
  rcases lastRunFor_go_mem s runs none r h with hacc | hmem
  · exact absurd hacc (by simp)
  · exact hmem

theorem lastRunFor_append_singleton (s : Source) (runs : List RunRec) (x : RunRec) :
    lastRunFor s (runs ++ [x])
      = if x.source = s then
          (match lastRunFor s runs with
           | none => some x
           | some b => if b.update_date ≤ x.update_date then some x else some b)
        else lastRunFor s runs := by
  unfold lastRunFor
  rw [List.foldl_append]
  rfl

/-- Appending a run for `s` dated no earlier than every run in the ledger
and carrying fingerprint `h` makes the change detector match `h`. -/
theorem hashMatches_append (s : Source) (runs : List RunRec) (x : RunRec)
    (hsrc : x.source = s) (hhash : x.file_hash = some h)
    (hdates : ∀ r ∈ runs, r.update_date ≤ x.update_date) :
    hashMatches s h (runs ++ [x]) = true := by
  unfold hashMatches
  rw [lastRunFor_append_singleton, if_pos hsrc]
  cases hl : lastRunFor s runs with
  | none => simp [hhash]
  | some b =>
    have hb := lastRunFor_mem s runs b hl
    simp only
    rw [if_pos (hdates b hb)]
    simp [hhash]

theorem ofac_skip (md5 : Str → ℕ) (recHash : EntityData → ℕ) (now : ℕ)
    (dl : OfacDownload) (st : EtlState)
    (h : hashMatches Source.OFAC (md5 dl.raw) st.runs = true) :
    run_ofac_update md5 recHash now (some dl) st
      = (RunOutcome.no_changes (md5 dl.raw), st) := by
  unfold run_ofac_update
  dsimp only
  rw [if_pos h]

theorem un_skip (md5 : Str → ℕ) (recHash : EntityData → ℕ) (now : ℕ)
    (dl : UnDownload) (st : EtlState)
    (h : hashMatches Source.UN (md5 dl.raw) st.runs = true) :
    run_un_update md5 recHash now (some dl) st
      = (RunOutcome.no_changes (md5 dl.raw), st) := by
  unfold run_un_update
  dsimp only
  rw [if_pos h]

theorem ofac_run_appends (md5 : Str → ℕ) (recHash : EntityData → ℕ) (now : ℕ)
    (dl : OfacDownload) (st : EtlState)
    (h : hashMatches Source.OFAC (md5 dl.raw) st.runs = false) :
    ∃ log : RunRec,
      (run_ofac_update md5 recHash now (some dl) st).2.runs = st.runs ++ [log] ∧
      log.source = Source.OFAC ∧ log.update_date = now ∧
      log.file_hash = some (md5 dl.raw) ∧
      (log.status = RunStatus.SUCCESS ∨ log.status = RunStatus.FAILED) := by
  rcases hp : parse_ofac_xml recHash now dl.parsed st.entities Stats.init with ⟨succ, ents, stats⟩
  unfold run_ofac_update
  dsimp only
  rw [if_neg (by rw [h]; simp), hp]
  refine ⟨_, rfl, rfl, rfl, rfl, ?_⟩
  cases succ
  · exact Or.inr rfl
  · exact Or.inl rfl

theorem un_run_appends (md5 : Str → ℕ) (recHash : EntityData → ℕ) (now : ℕ)
    (dl : UnDownload) (st : EtlState)
    (h : hashMatches Source.UN (md5 dl.raw) st.runs = false) :
    ∃ log : RunRec,
      (run_un_update md5 recHash now (some dl) st).2.runs = st.runs ++ [log] ∧
      log.source = Source.UN ∧ log.update_date = now ∧
      log.file_hash = some (md5 dl.raw) ∧
      (log.status = RunStatus.SUCCESS ∨ log.status = RunStatus.FAILED) := by
  rcases hp : parse_un_xml recHash now dl.parsed st.entities Stats.init with ⟨succ, ents, stats⟩
  unfold run_un_update
  dsimp only
  rw [if_neg (by rw [h]; simp), hp]
  refine ⟨_, rfl, rfl, rfl, rfl, ?_⟩
  cases succ
  · exact Or.inr rfl
  · exact Or.inl rfl

/-- Claim C3, counterexample: in a ledger whose most recent SUCCESS run for
OFAC carries exactly the incoming feed's fingerprint but whose most recent
run overall is a FAILED run with a different fingerprint, the run does not
short-circuit as NO_CHANGE and does write entities — because the code
compares against the most recent run of any status, not the most recent
SUCCESS run. -/
theorem C3_counterexample :
    ((lastSuccessFor Source.OFAC stC3.runs).map (fun r => r.file_hash))
        = some (some (md5len feedAliasA.raw)) ∧
    ((run_ofac_update md5len recHashNameLen 300 (some feedAliasA) stC3).1).isNoChanges
        = false ∧
    (run_ofac_update md5len recHashNameLen 300 (some feedAliasA) stC3).2.entities
        ≠ stC3.entities := by decide

/-- Claim C3 (amended): the downloaded feed's fingerprint is compared
against the fingerprint stored on the most recent run of any status for the
source; when they are equal the run short-circuits as NO_CHANGE with the
state (entities and ledger) completely unchanged; consequently running the
pipeline twice against an unchanged feed makes the second run a NO_CHANGE
run with zero entity mutations. -/
theorem C3_change_detection :
    (∀ (md5 : Str → ℕ) (recHash : EntityData → ℕ) (now : ℕ)
        (dl : OfacDownload) (st : EtlState),
      hashMatches Source.OFAC (md5 dl.raw) st.runs = true →
      run_ofac_update md5 recHash now (some dl) st
        = (RunOutcome.no_changes (md5 dl.raw), st)) ∧
    (∀ (md5 : Str → ℕ) (recHash : EntityData → ℕ) (now : ℕ)
        (dl : UnDownload) (st : EtlState),
      hashMatches Source.UN (md5 dl.raw) st.runs = true →
      run_un_update md5 recHash now (some dl) st
        = (RunOutcome.no_changes (md5 dl.raw), st)) ∧
    (∀ (md5 : Str → ℕ) (recHash : EntityData → ℕ) (now1 now2 : ℕ)
        (dl : OfacDownload) (st0 : EtlState),
      (∀ r ∈ st0.runs, r.update_date ≤ now1) →
      run_ofac_update md5 recHash now2 (some dl)
          (run_ofac_update md5 recHash now1 (some dl) st0).2
        = (RunOutcome.no_changes (md5 dl.raw),
           (run_ofac_update md5 recHash now1 (some dl) st0).2)) ∧
    (∀ (md5 : Str → ℕ) (recHash : EntityData → ℕ) (now1 now2 : ℕ)
        (dl : UnDownload) (st0 : EtlState),
      (∀ r ∈ st0.runs, r.update_date ≤ now1) →
      run_un_update md5 recHash now2 (some dl)
          (run_un_update md5 recHash now1 (some dl) st0).2
        = (RunOutcome.no_changes (md5 dl.raw),
           (run_un_update md5 recHash now1 (some dl) st0).2)) := by
  refine ⟨ofac_skip, un_skip, ?_, ?_⟩
  · intro md5 recHash now1 now2 dl st0 hdates
    by_cases h1 : hashMatches Source.OFAC (md5 dl.raw) st0.runs = true
    · rw [ofac_skip md5 recHash now1 dl st0 h1]
      exact ofac_skip md5 recHash now2 dl st0 h1
    · have h1' : hashMatches Source.OFAC (md5 dl.raw) st0.runs = false :=
        Bool.not_eq_true _ ▸ Bool.eq_false_iff.mpr h1
      obtain ⟨log, hruns, hsrc, hdate, hhash, _⟩ :=
        ofac_run_appends md5 recHash now1 dl st0 h1'
      apply ofac_skip
      rw [hruns]
      exact hashMatches_append Source.OFAC st0.runs log hsrc hhash
        (fun r hr => hdate ▸ hdates r hr)
  · intro md5 recHash now1 now2 dl st0 hdates
    by_cases h1 : hashMatches Source.UN (md5 dl.raw) st0.runs = true
    · rw [un_skip md5 recHash now1 dl st0 h1]
      exact un_skip md5 recHash now2 dl st0 h1
    · have h1' : hashMatches Source.UN (md5 dl.raw) st0.runs = false :=
        Bool.not_eq_true _ ▸ Bool.eq_false_iff.mpr h1
      obtain ⟨log, hruns, hsrc, hdate, hhash, _⟩ :=
        un_run_appends md5 recHash now1 dl st0 h1'
      apply un_skip
      rw [hruns]
      exact hashMatches_append Source.UN st0.runs log hsrc hhash
        (fun r hr => hdate ▸ hdates r hr)

/-- Witness for C3: the skip branch at a concrete ledger whose latest OFAC
run carries the feed's fingerprint. -/
theorem C3_witness :
    run_ofac_update md5len recHashNameLen 300 (some feedAliasA) stNoChange
      = (RunOutcome.no_changes (md5len feedAliasA.raw), stNoChange) :=
  C3_change_detection.1 md5len recHashNameLen 300 feedAliasA stNoChange (by decide)

end SanctionsApi

namespace SanctionsApi

theorem ofac_process_errors (recHash : EntityData → ℕ) (now : ℕ) (d : EntityData)
    (store : List StoredEntity) (stats : Stats) :
    (ofac_process_entity recHash now d store stats).2.errors = stats.errors := by
  unfold ofac_process_entity
  cases replaceFirstBy (fun e => ofac_matches d e) (ofac_update_existing now d) store with
  | none => rfl
  | some store' => rfl

theorem ofac_fold_errors (recHash : EntityData → ℕ) (now : ℕ) :
    ∀ (entries : List EntryOutcome) (store : List StoredEntity) (stats : Stats),
      (entries.foldl (etl_step (ofac_process_entity recHash now)) (store, stats)).2.errors
        = stats.errors ++ entries.filterMap entry_error := by
  intro entries
  induction entries with
  | nil => intro store stats; simp
  | cons eo rest ih =>
    intro store stats
    rw [List.foldl_cons]
    cases eo with
    | failure err =>
      rw [show etl_step (ofac_process_entity recHash now) (store, stats)
            (EntryOutcome.failure err)
          = (store, { stats with errors := stats.errors ++ [err] }) from rfl]
      rw [ih store { stats with errors := stats.errors ++ [err] }]
      simp [entry_error, List.append_assoc]
    | record d =>
      by_cases hname : d.name ≠ []
      · rw [show etl_step (ofac_process_entity recHash now) (store, stats)
              (EntryOutcome.record d)
            = ofac_process_entity recHash now d store stats by
              simp only [etl_step]
              rw [if_pos hname]]
        rcases hpe : ofac_process_entity recHash now d store stats with ⟨store', stats'⟩
        have herr : stats'.errors = stats.errors := by
          have := ofac_process_errors recHash now d store stats
          rw [hpe] at this
          exact this
        rw [ih store' stats', herr]
        simp [entry_error]
      · rw [show etl_step (ofac_process_entity recHash now) (store, stats)
              (EntryOutcome.record d)
            = (store, stats) by
              simp only [etl_step]
              rw [if_neg hname]]
        rw [ih store stats]
        simp [entry_error]

theorem parse_ofac_success (recHash : EntityData → ℕ) (now : ℕ)
    (entries : List EntryOutcome) (store : List StoredEntity) (stats : Stats)
    (h : entries ≠ []) :
    (parse_ofac_xml recHash now (OfacParsed.wellFormed entries) store stats).1 = true := by
  unfold parse_ofac_xml
  dsimp only
  rw [if_neg (by cases entries with
    | nil => exact absurd rfl h
    | cons a t => simp)]

/-- Claim C6: per-record exceptions are appended, in feed order, to the
run's error list and never flip the parse result; a non-empty OFAC feed runs
to completion as a SUCCESS run whose closing ledger entry carries the
collected record errors joined into `error_message`. -/
theorem C6_record_errors :
    (∀ (recHash : EntityData → ℕ) (now : ℕ) (entries : List EntryOutcome)
        (store : List StoredEntity) (stats : Stats),
      (entries.foldl (etl_step (ofac_process_entity recHash now)) (store, stats)).2.errors
        = stats.errors ++ entries.filterMap entry_error) ∧
    (∀ (recHash : EntityData → ℕ) (now : ℕ) (entries : List EntryOutcome)
        (store : List StoredEntity) (stats : Stats), entries ≠ [] →
      (parse_ofac_xml recHash now (OfacParsed.wellFormed entries) store stats).1 = true) ∧
    (∀ (md5 : Str → ℕ) (recHash : EntityData → ℕ) (now : ℕ)
        (dl : OfacDownload) (st : EtlState) (entries : List EntryOutcome),
      dl.parsed = OfacParsed.wellFormed entries → entries ≠ [] →
      hashMatches Source.OFAC (md5 dl.raw) st.runs = false →
      ∃ stats : Stats,
        (run_ofac_update md5 recHash now (some dl) st).1 = RunOutcome.run_success stats ∧
        stats.errors = entries.filterMap entry_error ∧
        (run_ofac_update md5 recHash now (some dl) st).2.runs
          = st.runs ++
            [{ source := Source.OFAC, update_date := now,
               records_added := stats.entities_added,
               records_updated := stats.entities_updated,
               records_deleted := stats.entities_deleted,
               file_hash := some (md5 dl.raw), status := RunStatus.SUCCESS,
               error_message := joinErrors stats.errors }]) := by
  refine ⟨fun recHash now => ofac_fold_errors recHash now, parse_ofac_success, ?_⟩
  intro md5 recHash now dl st entries hparsed hne hhash
  rcases hp : parse_ofac_xml recHash now dl.parsed st.entities Stats.init
    with ⟨succ, ents, stats⟩
  have hsucc : succ = true := by
    have h1 := parse_ofac_success recHash now entries st.entities Stats.init hne
    rw [← hparsed, hp] at h1
    exact h1
  subst hsucc
  have herr : stats.errors = entries.filterMap entry_error := by
    have h2 : (parse_ofac_xml recHash now dl.parsed st.entities Stats.init).2.2.errors
        = Stats.init.errors ++ entries.filterMap entry_error := by
      rw [hparsed]
      unfold parse_ofac_xml
      dsimp only
      rw [if_neg (by cases entries with
        | nil => exact absurd rfl hne
        | cons a t => simp)]
      rcases hf : entries.foldl (etl_step (ofac_process_entity recHash now))
        (st.entities, Stats.init) with ⟨store', stats'⟩
      have h3 := ofac_fold_errors recHash now entries st.entities Stats.init
      rw [hf] at h3
      exact h3
    rw [hp] at h2
    simpa [Stats.init] using h2
  refine ⟨stats, ?_, herr, ?_⟩
  · unfold run_ofac_update
    dsimp only
    rw [if_neg (by rw [hhash]; simp), hp]
    simp
  · unfold run_ofac_update
    dsimp only
    rw [if_neg (by rw [hhash]; simp), hp]
    simp

/-- Witness for C6: a one-element feed consisting of a single failing record
still parses as `True`. -/
theorem C6_witness :
    (parse_ofac_xml recHashNameLen 0
        (OfacParsed.wellFormed [EntryOutcome.failure "bad".toList]) [] Stats.init).1
      = true :=
  C6_record_errors.2.1 recHashNameLen 0 [EntryOutcome.failure "bad".toList] [] Stats.init
    (by decide)

/-- Claim C7, counterexample: a structurally valid UN feed with zero
individuals and zero entities parses as `True` and the run closes as an
empty SUCCESS, not as a failure — the UN adapter has no zero-records
check. -/
theorem C7_counterexample :
    (parse_un_xml recHashNameLen 0 (UnParsed.wellFormed [] []) [] Stats.init).1 = true ∧
    (run_un_update md5len recHashNameLen 10
        (some ⟨"u".toList, UnParsed.wellFormed [] []⟩) ⟨[], []⟩).1
      = RunOutcome.run_success Stats.init ∧
    ((run_un_update md5len recHashNameLen 10
        (some ⟨"u".toList, UnParsed.wellFormed [] []⟩) ⟨[], []⟩).2.runs.map
          (fun r => r.status)) = [RunStatus.SUCCESS] := by decide

/-- Claim C7 (amended): the OFAC adapter reports a run over a feed with no
`sdnEntry` elements as FAILED, but the UN adapter performs no such check and
reports a feed with zero individuals and zero entities as an (empty)
success. -/
theorem C7_zero_records :
    (∀ (recHash : EntityData → ℕ) (now : ℕ) (store : List StoredEntity) (stats : Stats),
      parse_ofac_xml recHash now (OfacParsed.wellFormed []) store stats
        = (false, store, stats)) ∧
    (∀ (md5 : Str → ℕ) (recHash : EntityData → ℕ) (now : ℕ)
        (dl : OfacDownload) (st : EtlState),
      dl.parsed = OfacParsed.wellFormed [] →
      hashMatches Source.OFAC (md5 dl.raw) st.runs = false →
      (run_ofac_update md5 recHash now (some dl) st).1
          = RunOutcome.run_failed Stats.init ∧
      (run_ofac_update md5 recHash now (some dl) st).2.runs
          = st.runs ++
            [{ source := Source.OFAC, update_date := now, records_added := 0,
               records_updated := 0, records_deleted := 0,
               file_hash := some (md5 dl.raw), status := RunStatus.FAILED,
               error_message := none }]) ∧
    (∀ (recHash : EntityData → ℕ) (now : ℕ) (store : List StoredEntity) (stats : Stats),
      parse_un_xml recHash now (UnParsed.wellFormed [] []) store stats
        = (true, store, stats)) := by
  refine ⟨fun recHash now store stats => rfl, ?_, fun recHash now store stats => rfl⟩
  intro md5 recHash now dl st hparsed hhash
  constructor
  · unfold run_ofac_update
    dsimp only
    rw [if_neg (by rw [hhash]; simp), hparsed]
    rfl
  · unfold run_ofac_update
    dsimp only
    rw [if_neg (by rw [hhash]; simp), hparsed]
    rfl

/-- Witness for C7: the OFAC empty-feed failure at a concrete state. -/
theorem C7_witness :
    (run_ofac_update md5len recHashNameLen 10
        (some ⟨"e".toList, OfacParsed.wellFormed []⟩) ⟨[], []⟩).1
      = RunOutcome.run_failed Stats.init ∧
    (run_ofac_update md5len recHashNameLen 10
        (some ⟨"e".toList, OfacParsed.wellFormed []⟩) ⟨[], []⟩).2.runs
      = [] ++
        [{ source := Source.OFAC, update_date := 10, records_added := 0,
           records_updated := 0, records_deleted := 0,
           file_hash := some (md5len "e".toList), status := RunStatus.FAILED,
           error_message := none }] :=
  C7_zero_records.2.1 md5len recHashNameLen 10 ⟨"e".toList, OfacParsed.wellFormed []⟩
    ⟨[], []⟩ rfl (by decide)

end SanctionsApi

namespace SanctionsApi

/-- Claim C5: the concurrency gate of `trigger_manual_update` rejects only
when a ledger row with status IN_PROGRESS exists, but no run path ever
writes an IN_PROGRESS row (runs append only terminal SUCCESS/FAILED rows at
completion), so every manual trigger is accepted — including a second
trigger issued while a first run is still in flight. -/
theorem C5_trigger_never_rejects :
    (∀ (now : ℕ) (s : Source) (runs : List RunRec),
      (∀ r ∈ runs, r.status ≠ RunStatus.IN_PROGRESS) →
      trigger_manual_update now s runs = true) ∧
    (∀ (md5 : Str → ℕ) (recHash : EntityData → ℕ) (now : ℕ)
        (download : Option OfacDownload) (st : EtlState),
      (∀ r ∈ st.runs, r.status ≠ RunStatus.IN_PROGRESS) →
      ∀ r ∈ (run_ofac_update md5 recHash now download st).2.runs,
        r.status ≠ RunStatus.IN_PROGRESS) ∧
    (∀ (md5 : Str → ℕ) (recHash : EntityData → ℕ) (now : ℕ)
        (download : Option UnDownload) (st : EtlState),
      (∀ r ∈ st.runs, r.status ≠ RunStatus.IN_PROGRESS) →
      ∀ r ∈ (run_un_update md5 recHash now download st).2.runs,
        r.status ≠ RunStatus.IN_PROGRESS) ∧
    trigger_manual_update 2000 Source.OFAC stNoChange.runs = true := by
  refine ⟨?_, ?_, ?_, by decide⟩
  · intro now s runs hruns
    unfold trigger_manual_update
    cases hf : runs.filter
        (fun r => decide (r.source = s) && decide (now - 1800 ≤ r.update_date)) with
    | nil => rfl
    | cons a t =>
      have ha : a ∈ runs :=
        (List.mem_filter.mp (by rw [hf]; exact List.mem_cons_self a t)).1
      simp only [List.head?]
      exact decide_eq_true (hruns a ha)
  · intro md5 recHash now download st hinv
    cases download with
    | none =>
      intro r hr
      unfold run_ofac_update at hr
      dsimp only at hr
      rcases List.mem_append.mp hr with hold | hnew
      · exact hinv r hold
      · obtain rfl := List.mem_singleton.mp hnew
        simp
    | some dl =>
      by_cases h : hashMatches Source.OFAC (md5 dl.raw) st.runs = true
      · rw [ofac_skip md5 recHash now dl st h]
        exact hinv
      · obtain ⟨log, hruns, _, _, _, hstat⟩ := ofac_run_appends md5 recHash now dl st
          (Bool.not_eq_true _ ▸ Bool.eq_false_iff.mpr h)
        intro r hr
        rw [hruns] at hr
        rcases List.mem_append.mp hr with hold | hnew
        · exact hinv r hold
        · obtain rfl := List.mem_singleton.mp hnew
          rcases hstat with hs | hs <;> rw [hs] <;> decide
  · intro md5 recHash now download st hinv
    cases download with
    | none =>
      intro r hr
      unfold run_un_update at hr
      dsimp only at hr
      rcases List.mem_append.mp hr with hold | hnew
      · exact hinv r hold
      · obtain rfl := List.mem_singleton.mp hnew
        simp
    | some dl =>
      by_cases h : hashMatches Source.UN (md5 dl.raw) st.runs = true
      · rw [un_skip md5 recHash now dl st h]
        exact hinv
      · obtain ⟨log, hruns, _, _, _, hstat⟩ := un_run_appends md5 recHash now dl st
          (Bool.not_eq_true _ ▸ Bool.eq_false_iff.mpr h)
        intro r hr
        rw [hruns] at hr
        rcases List.mem_append.mp hr with hold | hnew
        · exact hinv r hold
        · obtain rfl := List.mem_singleton.mp hnew
          rcases hstat with hs | hs <;> rw [hs] <;> decide

/-- Witness for C5: a trigger on a ledger of terminal-status runs is
accepted. -/
theorem C5_witness :
    trigger_manual_update 500 Source.UN stNoChange.runs = true :=
  C5_trigger_never_rejects.1 500 Source.UN stNoChange.runs (by decide)

/-- Claim C9, counterexample: a ledger whose only entry is a FAILED run one
hour old satisfies the claimed warning condition (no SUCCESS in 7 days, and
a FAILED run within 24 hours) but the health check sends no warning, because
it only counts rows of any status in the last 7 days. -/
theorem C9_counterexample :
    health_check_job 1000000
        [{ source := Source.OFAC, update_date := 996400, records_added := 0,
           records_updated := 0, records_deleted := 0, file_hash := none,
           status := RunStatus.FAILED, error_message := none }] = false ∧
    spec_health_warn 1000000
        [{ source := Source.OFAC, update_date := 996400, records_added := 0,
           records_updated := 0, records_deleted := 0, file_hash := none,
           status := RunStatus.FAILED, error_message := none }] = true := by decide

/-- Claim C9 (amended): the health check raises its warning exactly when the
ledger holds no run of any status dated within the last 7 days — it ignores
run statuses entirely and performs no FAILED-in-24h check (and, being a pure
read of the ledger, it mutates nothing). -/
theorem C9_health_check :
    (∀ (now : ℕ) (runs : List RunRec),
      (health_check_job now runs = true ↔
        ∀ r ∈ runs, r.update_date < now - 7 * 86400)) ∧
    health_check_job (8 * 86400)
        [{ source := Source.OFAC, update_date := 2 * 86400, records_added := 0,
           records_updated := 0, records_deleted := 0, file_hash := none,
           status := RunStatus.SUCCESS, error_message := none }] = false := by
  constructor
  · intro now runs
    unfold health_check_job
    rw [decide_eq_true_eq, List.length_eq_zero, List.filter_eq_nil_iff]
    constructor
    · intro h r hr
      have := h r hr
      simp only [decide_eq_true_eq] at this
      omega
    · intro h r hr
      simp only [decide_eq_true_eq]
      have := h r hr
      omega
  · decide

/-- Witness for C9: a ledger whose only run is 8 days old raises the
warning. -/
theorem C9_witness :
    health_check_job (9 * 86400)
        [{ source := Source.OFAC, update_date := 86400, records_added := 0,
           records_updated := 0, records_deleted := 0, file_hash := none,
           status := RunStatus.SUCCESS, error_message := none }] = true :=
  (C9_health_check.1 (9 * 86400)
    [{ source := Source.OFAC, update_date := 86400, records_added := 0,
       records_updated := 0, records_deleted := 0, file_hash := none,
       status := RunStatus.SUCCESS, error_message := none }]).mpr (by decide)

end SanctionsApi


namespace SanctionsApi

theorem likeMatch_all (ts : Str) : likeMatch ['%'] ts = true := by
  induction ts with
  | nil => simp [likeMatch]
  | cons t ts' ih => simp [likeMatch, ih]

theorem likeMatch_percent (ps ts : Str) :
    likeMatch ('%' :: ps) ts = true ↔ ∃ n, likeMatch ps (ts.drop n) = true := by
  induction ts with
  | nil =>
    constructor
    · intro h
      exact ⟨0, by simpa [likeMatch] using h⟩
    · rintro ⟨n, hn⟩
      simp only [List.drop_nil] at hn
      simp [likeMatch, hn]
  | cons t ts' ih =>
    constructor
    · intro h
      have h' : likeMatch ps (t :: ts') = true ∨ likeMatch ('%' :: ps) ts' = true := by
        simpa [likeMatch] using h
      rcases h' with h1 | h2
      · exact ⟨0, h1⟩
      · obtain ⟨n, hn⟩ := ih.mp h2
        exact ⟨n + 1, by simpa using hn⟩
    · rintro ⟨n, hn⟩
      cases n with
      | zero =>
        simp only [List.drop_zero] at hn
        simp [likeMatch, hn]
      | succ n =>
        have h2 : likeMatch ('%' :: ps) ts' = true := ih.mpr ⟨n, by simpa using hn⟩
        simp [likeMatch, h2]

theorem likeMatch_literal : ∀ (q ts : Str), '%' ∉ q → '_' ∉ q →
    (likeMatch (q ++ ['%']) ts = true
      ↔ (lowerStr q).isPrefixOf (lowerStr ts) = true) := by
  intro q
  induction q with
  | nil =>
    intro ts _ _
    simp [likeMatch_all, lowerStr, List.isPrefixOf]
  | cons c q' ih =>
    intro ts hq1 hq2
    have hc1 : ¬ c = '%' := fun h => hq1 (by rw [h]; exact List.mem_cons_self '%' q')
    have hc2 : ¬ c = '_' := fun h => hq2 (by rw [h]; exact List.mem_cons_self '_' q')
    have hq1' : '%' ∉ q' := fun h => hq1 (List.mem_cons_of_mem c h)
    have hq2' : '_' ∉ q' := fun h => hq2 (List.mem_cons_of_mem c h)
    cases ts with
    | nil => simp [likeMatch, hc1, hc2, lowerStr, List.isPrefixOf]
    | cons t ts' =>
      rw [show (c :: q') ++ ['%'] = c :: (q' ++ ['%']) from rfl]
      rw [show likeMatch (c :: (q' ++ ['%'])) (t :: ts')
            = ((Char.toLower c == Char.toLower t) && likeMatch (q' ++ ['%']) ts') from by
          simp [likeMatch, hc1, hc2]]
      rw [show lowerStr (c :: q') = Char.toLower c :: lowerStr q' from rfl,
        show lowerStr (t :: ts') = Char.toLower t :: lowerStr ts' from rfl,
        show (Char.toLower c :: lowerStr q').isPrefixOf (Char.toLower t :: lowerStr ts')
            = ((Char.toLower c == Char.toLower t) && (lowerStr q').isPrefixOf (lowerStr ts'))
          from rfl]
      rw [Bool.and_eq_true, Bool.and_eq_true]
      exact and_congr Iff.rfl (ih ts' hq1' hq2')

theorem isPrefixOf_nil (q : Str) : q.isPrefixOf [] = q.isEmpty := by
  cases q <;> rfl

theorem isSubstrOf_iff_drop (q : Str) :
    ∀ ts : Str, isSubstrOf q ts = true ↔ ∃ n, q.isPrefixOf (ts.drop n) = true := by
  intro ts
  induction ts with
  | nil =>
    unfold isSubstrOf
    constructor
    · intro h
      exact ⟨0, by rw [List.drop_nil, isPrefixOf_nil]; exact h⟩
    · rintro ⟨n, hn⟩
      rw [List.drop_nil, isPrefixOf_nil] at hn
      exact hn
  | cons t ts' ih =>
    unfold isSubstrOf
    rw [Bool.or_eq_true]
    constructor
    · rintro (h1 | h2)
      · exact ⟨0, h1⟩
      · obtain ⟨n, hn⟩ := ih.mp h2
        exact ⟨n + 1, by simpa using hn⟩
    · rintro ⟨n, hn⟩
      cases n with
      | zero => exact Or.inl hn
      | succ n => exact Or.inr (ih.mpr ⟨n, by simpa using hn⟩)

theorem lowerStr_drop (ts : Str) (n : ℕ) :
    (lowerStr ts).drop n = lowerStr (ts.drop n) := by
  unfold lowerStr
  rw [List.map_drop]

theorem likeMatch_pat_iff (q ts : Str) (hq1 : '%' ∉ q) (hq2 : '_' ∉ q) :
    likeMatch (ilike_pat q) ts = true ↔ isSubstrOf (lowerStr q) (lowerStr ts) = true := by
  unfold ilike_pat
  rw [likeMatch_percent, isSubstrOf_iff_drop]
  constructor
  · rintro ⟨n, hn⟩
    refine ⟨n, ?_⟩
    rw [lowerStr_drop]
    exact (likeMatch_literal q (ts.drop n) hq1 hq2).mp hn
  · rintro ⟨n, hn⟩
    rw [lowerStr_drop] at hn
    exact ⟨n, (likeMatch_literal q (ts.drop n) hq1 hq2).mpr hn⟩

end SanctionsApi

namespace SanctionsApi

theorem likeMatch_cons_lit (p : Char) (ps : Str) (t : Char) (ts : Str)
    (h1 : ¬ p = '%') (h2 : ¬ p = '_') :
    likeMatch (p :: ps) (t :: ts)
      = ((Char.toLower p == Char.toLower t) && likeMatch ps ts) := by
  simp only [likeMatch]
  rw [if_neg h1, if_neg h2]

/-- Claim C10, counterexample: the query `"j%e"` contains a SQL wildcard, so
the `ilike` candidate pre-filter admits the entity "Jane" and — with
`min_score` 0 — the search returns it, even though `"j%e"` is not a
case-insensitive substring of any of its fields. -/
theorem C10_counterexample :
    ((search_entities [entJane] "j%e".toList SearchFilters.empty 0 0 20).map
        Prod.fst) = [entJane] ∧
    entity_has_substring "j%e".toList entJane = false := by
  constructor
  · have h1 : likeMatch (ilike_pat "j%e".toList) entJane.name = true := by
      show likeMatch ('%' :: ('j' :: '%' :: 'e' :: []) ++ ['%'])
        ('J' :: 'a' :: 'n' :: 'e' :: []) = true
      refine (likeMatch_percent _ _).mpr ⟨0, ?_⟩
      show likeMatch ('j' :: '%' :: 'e' :: '%' :: []) ('J' :: 'a' :: 'n' :: 'e' :: []) = true
      rw [likeMatch_cons_lit 'j' _ 'J' _ (by decide) (by decide),
        show (Char.toLower 'j' == Char.toLower 'J') = true from by decide, Bool.true_and]
      refine (likeMatch_percent _ _).mpr ⟨2, ?_⟩
      show likeMatch ('e' :: '%' :: []) ('e' :: []) = true
      rw [likeMatch_cons_lit 'e' _ 'e' _ (by decide) (by decide),
        show (Char.toLower 'e' == Char.toLower 'e') = true from by decide, Bool.true_and]
      exact likeMatch_all []
    have hms : matches_search_text "j%e".toList entJane = true := by
      unfold matches_search_text
      rw [h1, Bool.true_or, Bool.true_or, Bool.true_or]
    have hbsq : build_search_query [entJane] "j%e".toList SearchFilters.empty
        = [entJane] := by
      unfold build_search_query
      rw [show List.filter (fun e => entity_passes_filters SearchFilters.empty e) [entJane]
            = [entJane] from by decide]
      rw [List.filter_cons_of_pos hms, List.filter_nil]
    unfold search_entities
    rw [hbsq,
      show (([entJane].drop 0).take 20) = [entJane] from by decide,
      show score_and_filter "j%e".toList 0 [entJane]
          = [(entJane, best_match "j%e".toList entJane)] from by decide]
    unfold sort_results
    rw [List.mergeSort_singleton]
    decide
  · decide

/-- Claim C10 (amended): for a query containing neither `%` nor `_`, every
entity the search returns has the query as a case-insensitive substring of
its name, of one of its alias names, of one of its address fields, or of one
of its document numbers; queries containing SQL wildcards are matched with
`LIKE`-pattern semantics instead, for which literal substring containment is
not guaranteed. -/
theorem C10_substring_prefilter :
    ∀ (store : List StoredEntity) (q : Str) (f : SearchFilters) (min_score : ℚ)
      (offset limit : ℕ), '%' ∉ q → '_' ∉ q →
      ∀ p ∈ search_entities store q f min_score offset limit,
        entity_has_substring q p.1 = true := by
  intro store q f min_score offset limit hq1 hq2 p hp
  have hmem : p.1 ∈ build_search_query store q f := by
    unfold search_entities sort_results at hp
    rw [List.mem_mergeSort] at hp
    unfold score_and_filter at hp
    rw [List.mem_filterMap] at hp
    obtain ⟨e', he', heq⟩ := hp
    by_cases hcond : min_score ≤ (best_match q e').score
    · rw [if_pos hcond] at heq
      obtain rfl := Option.some_inj.mp heq
      exact List.mem_of_mem_drop (List.mem_of_mem_take he')
    · rw [if_neg hcond] at heq
      exact absurd heq (by simp)
  have htext : matches_search_text q p.1 = true := by
    unfold build_search_query at hmem
    exact (List.mem_filter.mp hmem).2
  unfold matches_search_text at htext
  unfold entity_has_substring
  simp only [Bool.or_eq_true, List.any_eq_true] at htext ⊢
  rcases htext with ((hn | ⟨a, ha, hlm⟩) | ⟨ad, had, hlm⟩) | ⟨dc, hdc, hlm⟩
  · exact Or.inl (Or.inl (Or.inl ((likeMatch_pat_iff q _ hq1 hq2).mp hn)))
  · exact Or.inl (Or.inl (Or.inr ⟨a, ha, (likeMatch_pat_iff q _ hq1 hq2).mp hlm⟩))
  · refine Or.inl (Or.inr ⟨ad, had, ?_⟩)
    rcases hlm with (hfull | hcity) | hcountry
    · exact Or.inl (Or.inl ((likeMatch_pat_iff q _ hq1 hq2).mp hfull))
    · refine Or.inl (Or.inr ?_)
      rcases hc : ad.city with _ | c
      · rw [hc] at hcity
        exact absurd hcity (by simp)
      · rw [hc] at hcity
        exact (likeMatch_pat_iff q _ hq1 hq2).mp hcity
    · exact Or.inr ((likeMatch_pat_iff q _ hq1 hq2).mp hcountry)
  · exact Or.inr ⟨dc, hdc, (likeMatch_pat_iff q _ hq1 hq2).mp hlm⟩

/-- Witness for C10: a wildcard-free query returning a concrete entity whose
name contains it. -/
theorem C10_witness :
    entity_has_substring "Jane".toList entJane = true :=
  C10_substring_prefilter [entJane] "Jane".toList SearchFilters.empty 0 0 20
    (by decide) (by decide) (entJane, best_match "Jane".toList entJane) (by
      have h1 : likeMatch (ilike_pat "Jane".toList) entJane.name = true :=
        (likeMatch_pat_iff "Jane".toList entJane.name (by decide) (by decide)).mpr
          (by decide)
      have hms : matches_search_text "Jane".toList entJane = true := by
        unfold matches_search_text
        rw [h1, Bool.true_or, Bool.true_or, Bool.true_or]
      have hbsq : build_search_query [entJane] "Jane".toList SearchFilters.empty
          = [entJane] := by
        unfold build_search_query
        rw [show List.filter (fun e => entity_passes_filters SearchFilters.empty e) [entJane]
              = [entJane] from by decide]
        rw [List.filter_cons_of_pos hms, List.filter_nil]
      unfold search_entities
      rw [hbsq,
        show (([entJane].drop 0).take 20) = [entJane] from by decide,
        show score_and_filter "Jane".toList 0 [entJane]
            = [(entJane, best_match "Jane".toList entJane)] from by decide]
      unfold sort_results
      rw [List.mergeSort_singleton]
      exact List.mem_singleton.mpr rfl)

end SanctionsApi
